import Mathlib

/-!
Verification of the GlobalPulse RSS ingestion core
(backend/app/scraper/rss_engine.py and backend/app/scraper/scheduler.py)
against its natural-language specification.

Shallow embedding conventions:
* Python `str` values are embedded as `List Char` (`Str`); `str.lower` is
  embedded as ASCII lowering (all keywords in the tables are ASCII).
* `datetime` instants are embedded as integers (seconds); `timedelta`
  comparisons become integer comparisons on second counts.
* `float` scores are embedded as `ℚ`: every arithmetic operation performed
  by `_calculate_importance` (adding small integers, clamping, rounding an
  integral value to two decimals) is exact in binary floating point, so the
  rational embedding computes the same values.
* The MD5 hex digest used for URL dedup is an opaque parameter
  `md5 : Str → Str`; every theorem quantifies over it.
* `datetime.now(timezone.utc)` calls inside a single engine pass are
  embedded as one explicit parameter `now`.
-/

namespace GlobalPulse

abbrev Str := List Char

/-- `str.lower()` (ASCII range, the only one exercised by the keyword tables). -/
def pyLower (s : Str) : Str := s.map Char.toLower

/-- Python substring test: `p in s`. -/
def containsSub (s p : Str) : Bool := s.tails.any (fun suf => p.isPrefixOf suf)

/-- Python whitespace class `\s` (ASCII part). -/
def pyIsSpace (c : Char) : Bool :=
  c = ' ' || c = '\t' || c = '\n' || c = '\r' || c = '\x0b' || c = '\x0c'

/-- `str.strip()`. -/
def pyStrip (s : Str) : Str :=
  ((s.dropWhile pyIsSpace).reverse.dropWhile pyIsSpace).reverse

/-- Python truthiness of an optional string (`not title`): absent or empty. -/
def falsy : Option Str → Bool
  | none => true
  | some s => s.isEmpty

/-- BREAKING_KEYWORDS from rss_engine.py. -/
def BREAKING_KEYWORDS : List String :=
  ["breaking", "urgent", "just in", "developing", "alert", "flash",
   "emergency", "crisis", "BREAKING", "explosion", "shooting", "earthquake",
   "tsunami", "coup", "assassination", "invaded", "nuclear",
   "declaration of war", "state of emergency", "martial law"]

/-- HIGH_IMPORTANCE_KEYWORDS from rss_engine.py. -/
def HIGH_IMPORTANCE_KEYWORDS : List String :=
  ["president", "prime minister", "united nations", "NATO", "EU",
   "G7", "G20", "killed", "dead", "wounded", "displaced",
   "sanctions", "invasion", "ceasefire", "peace deal", "election results",
   "coup attempt", "mass shooting", "terror attack", "pandemic"]

/-- CATEGORY_KEYWORDS from rss_engine.py, in declaration (insertion) order. -/
def CATEGORY_KEYWORDS : List (String × List String) :=
  [("conflict",
    ["war", "attack", "bombing", "missile", "military", "airstrike", "killed",
     "troops", "invasion", "offensive", "ceasefire", "casualties", "armed",
     "weapon", "drone strike", "shelling", "terrorist", "insurgent", "siege",
     "combat", "militia", "artillery", "explosion", "battlefield"]),
   ("diplomacy",
    ["summit", "treaty", "ambassador", "diplomatic", "negotiations", "UN",
     "resolution", "bilateral", "multilateral", "peace talks", "envoy",
     "foreign minister", "secretary of state", "accord", "deal", "pact"]),
   ("economy",
    ["GDP", "inflation", "recession", "stock market", "trade", "tariff",
     "interest rate", "federal reserve", "central bank", "unemployment",
     "economic", "fiscal", "monetary", "budget", "debt", "bond",
     "currency", "IMF", "World Bank", "sanctions", "export", "import"]),
   ("protests",
    ["protest", "demonstration", "rally", "uprising", "revolution",
     "opposition", "dissent", "crackdown", "riot", "unrest", "march",
     "strike", "civil disobedience", "activists", "tear gas"]),
   ("sanctions",
    ["sanctions", "embargo", "blacklist", "freeze assets", "ban",
     "restricted", "penalized", "OFAC", "export controls"]),
   ("technology",
    ["AI", "artificial intelligence", "cyber", "hack", "data breach",
     "technology", "tech", "software", "startup", "crypto", "blockchain",
     "quantum", "semiconductor", "chip", "internet", "5G", "6G"]),
   ("climate",
    ["climate", "global warming", "carbon", "emissions", "renewable",
     "solar", "wind energy", "drought", "flood", "hurricane", "typhoon",
     "wildfire", "temperature", "ice melt", "sea level", "deforestation"]),
   ("health",
    ["pandemic", "epidemic", "virus", "vaccine", "outbreak", "WHO",
     "disease", "infection", "hospital", "health", "medical", "COVID",
     "flu", "ebola", "malaria", "pharmaceutical"]),
   ("internet",
    ["internet shutdown", "censorship", "social media ban", "VPN",
     "digital rights", "surveillance", "privacy", "data protection",
     "online censorship", "firewall", "blocked"])]

/-- `FUZZY_MATCH_THRESHOLD = 0.85`. -/
def FUZZY_MATCH_THRESHOLD : ℚ := 85 / 100

/-- One keyword occurrence test: `kw.lower() in text`. -/
def kwHit (text : Str) (kwd : String) : Bool := containsSub text (pyLower kwd.toList)

/-- The `for kw in BREAKING_KEYWORDS: if kw.lower() in text: score += 3.0; break`
loop of `_calculate_importance`, returning the bonus the loop adds. -/
def breakingBonus (kws : List String) (text : Str) : ℚ :=
  match kws with
  | [] => 0
  | kwd :: rest => if kwHit text kwd then 3 else breakingBonus rest text

/-- Python `round(x, 2)` on the (always integral) clamped score.  Mathlib
`round` rounds halves up while Python rounds halves to even, but
`_calculate_importance` only ever rounds integral values, where both agree. -/
def round2 (q : ℚ) : ℚ := (round (q * 100) : ℚ) / 100

/-- `RSSEngine._calculate_importance`.  `priority` is the source tier,
`published_at`/`now` are instants in seconds. -/
def calculate_importance (title summary : Str) (priority : ℤ)
    (published_at now : ℤ) : ℚ :=
  let text := pyLower (title ++ [' '] ++ summary)
  let score : ℚ := 0 + ((max 0 (4 - priority) : ℤ) : ℚ)
  let score := score + breakingBonus BREAKING_KEYWORDS text
  let hi_count := HIGH_IMPORTANCE_KEYWORDS.countP (kwHit text)
  let score := score + ((min hi_count 4 : ℕ) : ℚ)
  let age := now - published_at
  let score :=
    if age < 30 * 60 then score + 2
    else if age < 60 * 60 then score + 1
    else if age > 24 * 60 * 60 then score - 1
    else score
  round2 (max 0 (min 10 score))

/-- The importance score exactly as the specification words it (claim C1):
tier base, a single breaking bonus, a capped high-importance count, one
mutually exclusive recency term, then clamp to [0,10] and round. -/
def spec_importance (title summary : Str) (tier : ℤ)
    (published_at now : ℤ) : ℚ :=
  let text := pyLower (title ++ [' '] ++ summary)
  let base : ℚ := ((max 0 (4 - tier) : ℤ) : ℚ)
  let brk : ℚ := if BREAKING_KEYWORDS.any (kwHit text) then 3 else 0
  let hi : ℚ := ((min (HIGH_IMPORTANCE_KEYWORDS.countP (kwHit text)) 4 : ℕ) : ℚ)
  let age := now - published_at
  let recency : ℚ :=
    if age < 30 * 60 then 2
    else if age < 60 * 60 then 1
    else if age > 24 * 60 * 60 then -1
    else 0
  round2 (max 0 (min 10 (base + brk + hi + recency)))

/-! ## Category classification (`RSSEngine._classify_category`) -/

/-- Keyword-count of one category row, `sum(1 for kw in keywords if kw.lower() in text)`. -/
def categoryScore (text : Str) (kws : List String) : ℕ := kws.countP (kwHit text)

/-- Python `max(scores, key=scores.get)` over an insertion-ordered dict:
the first element with the maximal value (later elements replace the current
best only when strictly greater). -/
def pyMaxFirst (s : String × ℕ) (rest : List (String × ℕ)) : String × ℕ :=
  rest.foldl (fun best p => if p.2 > best.2 then p else best) s

/-- `RSSEngine._classify_category`: build the positive-score dict in table
order, return "general" when empty, else the first maximal entry. -/
def classify_category (title summary : Str) : String :=
  let text := pyLower (title ++ [' '] ++ summary)
  let scores := CATEGORY_KEYWORDS.filterMap (fun p =>
    let sc := categoryScore text p.2
    if sc > 0 then some (p.1, sc) else none)
  match scores with
  | [] => "general"
  | s :: rest => (pyMaxFirst s rest).1

/-- Classification exactly as the specification words it (claim C4): for each
category count keyword-substring hits, pick the strictly highest count, ties
keep the first category in table-declaration order, zero matches give
"general". -/
def spec_classify (title summary : Str) : String :=
  let text := pyLower (title ++ [' '] ++ summary)
  (CATEGORY_KEYWORDS.foldl (fun best p =>
      let sc := categoryScore text p.2
      if sc > best.2 then (p.1, sc) else best) ("general", 0)).1

/-! ## difflib.SequenceMatcher (as used by `_is_duplicate_title`)

`SequenceMatcher(None, a, b).ratio()` with `isjunk = None`: the junk set is
empty, so the two junk-extension loops of `find_longest_match` are identies
and are omitted; the autojunk "popular" filter on `b2j` (active when
`len(b) >= 200`) is embedded.  `ratio` is `2*M/T` where `M` sums the sizes of
the blocks produced by the recursive longest-match decomposition (the
adjacent-block merging in `get_matching_blocks` preserves that sum). -/

/-- Association-list lookup for `b2j` (char to ascending index list). -/
def alistGetC (m : List (Char × List ℕ)) (c : Char) : List ℕ :=
  match m.find? (fun p => p.1 = c) with
  | some p => p.2
  | none => []

/-- Append an index to a char's entry (insertion-ordered dict update). -/
def alistAppC (m : List (Char × List ℕ)) (c : Char) (i : ℕ) :
    List (Char × List ℕ) :=
  if (m.find? (fun p => p.1 = c)).isSome then
    m.map (fun p => if p.1 = c then (p.1, p.2 ++ [i]) else p)
  else m ++ [(c, [i])]

/-- `b2j` before autojunk: for each char of `b`, its indices in ascending order. -/
def b2jBuild (b : Str) : List (Char × List ℕ) :=
  b.enum.foldl (fun m p => alistAppC m p.2 p.1) []

/-- `__chain_b` with `isjunk = None`: autojunk removes "popular" chars
(more than `len(b) // 100 + 1` occurrences) when `len(b) >= 200`. -/
def b2jOf (b : Str) : List (Char × List ℕ) :=
  let m := b2jBuild b
  if 200 ≤ b.length then
    let ntest := b.length / 100 + 1
    m.filter (fun p => p.2.length ≤ ntest)
  else m

/-- `j2len` lookup with default 0. -/
def alistGetN (m : List (ℕ × ℕ)) (j : ℕ) : ℕ :=
  match m.find? (fun p => p.1 = j) with
  | some p => p.2
  | none => 0

/-- `newj2len[j] = k`. -/
def alistSetN (m : List (ℕ × ℕ)) (j k : ℕ) : List (ℕ × ℕ) :=
  if (m.find? (fun p => p.1 = j)).isSome then
    m.map (fun p => if p.1 = j then (p.1, k) else p)
  else m ++ [(j, k)]

/-- Inner loop of `find_longest_match` over `b2j.get(a[i], [])`, with the
`continue` on `j < blo` and the `break` on `j >= bhi`.  Carries the old
`j2len`, the fresh `newj2len` and the running `(besti, bestj, bestsize)`.
The lookback `j2len.get(j - 1, 0)` is 0 when `j = 0` (CPython reads key
`-1`, which is never present); run starts are computed as `i + 1 - k`
(Python `i - k + 1`). -/
def flmInner (blo bhi i : ℕ) : List ℕ → List (ℕ × ℕ) → List (ℕ × ℕ) →
    ℕ × ℕ × ℕ → List (ℕ × ℕ) × (ℕ × ℕ × ℕ)
  | [], _, newj2len, best => (newj2len, best)
  | j :: js, j2len, newj2len, best =>
      if j < blo then flmInner blo bhi i js j2len newj2len best
      else if bhi ≤ j then (newj2len, best)
      else
        let k := (if j = 0 then 0 else alistGetN j2len (j - 1)) + 1
        let newj2len := alistSetN newj2len j k
        let best := if k > best.2.2 then (i + 1 - k, j + 1 - k, k) else best
        flmInner blo bhi i js j2len newj2len best

/-- `a[i] == b[j]` with both indices in range. -/
def charEqAt (a b : Str) (i j : ℕ) : Bool :=
  match a.get? i, b.get? j with
  | some x, some y => x = y
  | _, _ => false

/-- First extension loop: widen the block to the left over equal chars
(`bjunk` is empty, so the junk test is vacuous). -/
def extendLeft (a b : Str) (alo blo : ℕ) (besti bestj bestk : ℕ) :
    ℕ × ℕ × ℕ :=
  if h : alo < besti ∧ blo < bestj ∧
      charEqAt a b (besti - 1) (bestj - 1) = true then
    extendLeft a b alo blo (besti - 1) (bestj - 1) (bestk + 1)
  else (besti, bestj, bestk)
termination_by besti
decreasing_by
  have := h.1
  omega

/-- Second extension loop: widen the block to the right over equal chars. -/
def extendRight (a b : Str) (ahi bhi besti bestj : ℕ) (bestk : ℕ) : ℕ :=
  if h : besti + bestk < ahi ∧ bestj + bestk < bhi ∧
      charEqAt a b (besti + bestk) (bestj + bestk) = true then
    extendRight a b ahi bhi besti bestj (bestk + 1)
  else bestk
termination_by ahi - (besti + bestk)
decreasing_by
  have := h.1
  omega

/-- `find_longest_match(alo, ahi, blo, bhi)` returning
`(besti, bestj, bestsize)`. -/
def find_longest_match (a b : Str) (m : List (Char × List ℕ))
    (alo ahi blo bhi : ℕ) : ℕ × ℕ × ℕ :=
  let res := (List.range' alo (ahi - alo)).foldl
    (fun st i =>
      let js := match a.get? i with
        | some c => alistGetC m c
        | none => []
      flmInner blo bhi i js st.1 [] st.2)
    (([] : List (ℕ × ℕ)), (alo, blo, 0))
  let best := res.2
  let best := extendLeft a b alo blo best.1 best.2.1 best.2.2
  let bestk := extendRight a b ahi bhi best.1 best.2.1 best.2.2
  (best.1, best.2.1, bestk)

/-- Total size of all matching blocks: the recursive decomposition under
`get_matching_blocks` (recurse left and right of each longest block). -/
def matchesTotal (a b : Str) (m : List (Char × List ℕ)) :
    ℕ → ℕ → ℕ → ℕ → ℕ → ℕ
  | 0, _, _, _, _ => 0
  | fuel + 1, alo, ahi, blo, bhi =>
      let best := find_longest_match a b m alo ahi blo bhi
      let i := best.1
      let j := best.2.1
      let k := best.2.2
      if k = 0 then 0
      else matchesTotal a b m fuel alo i blo j + k +
        matchesTotal a b m fuel (i + k) ahi (j + k) bhi

/-- `SequenceMatcher(None, a, b).ratio()` (`_calculate_ratio`). -/
def sm_ratio (a b : Str) : ℚ :=
  let m_total := matchesTotal a b (b2jOf b) (a.length + b.length + 1)
    0 a.length 0 b.length
  let length := a.length + b.length
  if length = 0 then 1 else 2 * (m_total : ℚ) / (length : ℚ)

/-! ## HTML cleaning (`RSSEngine._clean_html`) -/

/-- Split at the first `>` of the string: the chars before it and the rest
after it (used to embed one leftmost match of the regex `<[^>]+>`). -/
def splitAtGt : Str → Option (Str × Str)
  | [] => none
  | c :: rest =>
      if c = '>' then some ([], rest)
      else (splitAtGt rest).map (fun p => (c :: p.1, p.2))

/-- `re.sub(r"<[^>]+>", "", raw)`: scanning left to right, a `<` followed by
at least one non-`>` char and a closing `>` is deleted; a `<` with no such
closing (`<>` or an unterminated `<`) is kept and scanning continues. -/
def stripTags : Str → Str
  | [] => []
  | c :: rest =>
      if c = '<' then
        match h : splitAtGt rest with
        | some p => if p.1.isEmpty then c :: stripTags rest else stripTags p.2
        | none => c :: stripTags rest
      else c :: stripTags rest
termination_by s => s.length
decreasing_by
  · simp
  · have key : ∀ (l : Str) (q : Str × Str),
        splitAtGt l = some q → q.2.length < l.length := by
      intro l
      induction l with
      | nil => intro q hq; simp [splitAtGt] at hq
      | cons c rest ih =>
          intro q hq
          by_cases hc : c = '>'
          · rw [splitAtGt, if_pos hc] at hq
            cases hq
            simp
          · rw [splitAtGt, if_neg hc, Option.map_eq_some'] at hq
            obtain ⟨q2, hq2, hqa⟩ := hq
            have hq2len := ih q2 hq2
            cases hqa
            simp
            omega
    have := key rest p h
    simp
    omega
  · simp
  · simp

/-- `re.sub(r"\s+", " ", s)`: collapse every whitespace run to one space. -/
def collapseWs : Str → Str
  | [] => []
  | c :: rest =>
      if pyIsSpace c then ' ' :: collapseWs (rest.dropWhile pyIsSpace)
      else c :: collapseWs rest
termination_by s => s.length
decreasing_by
  · have := (List.dropWhile_sublist (l := rest) pyIsSpace).length_le
    simp
    omega
  · simp

/-- `RSSEngine._clean_html`. -/
def clean_html (raw : Str) : Str :=
  if raw.isEmpty then []
  else
    let clean := pyStrip (collapseWs (stripTags raw))
    if 2000 < clean.length then clean.take 2000 ++ "...".toList else clean

/-! ## Engine state, feed entries, and `_parse_entry` -/

/-- A feed entry as surfaced by `feedparser`; `none` models a missing
attribute.  `published_parsed`/`updated_parsed` carry the POSIX timestamp the
`datetime.fromtimestamp(mktime(...))` conversion would produce; `none` also
covers a conversion that raises (the `except: pass` paths). -/
structure Enclosure where
  type : Str
  href : Option Str
  url : Option Str

structure FeedEntry where
  title : Option Str
  link : Option Str
  summary : Option Str
  description : Option Str
  published_parsed : Option ℤ
  updated_parsed : Option ℤ
  media_content : List (Option Str)
  media_thumbnail : List (Option Str)
  enclosures : List Enclosure

/-- The candidate/item record built by `_parse_entry` (the random
`uuid.uuid4()` id and the constant empty translation maps are omitted). -/
structure Article where
  title : Str
  summary : Option Str
  source_name : String
  source_url : String
  url : Str
  region : String
  category : String
  published_at : ℤ
  scraped_at : ℤ
  importance_score : ℚ
  image_url : Option Str
  language : String
deriving DecidableEq

/-- Run-scoped dedup state (`self.seen_urls`, `self.seen_titles`).  The set of
MD5 digests is modeled as a duplicate-free list. -/
structure EngineState where
  seen_urls : List Str
  seen_titles : List Str
deriving DecidableEq

def emptyState : EngineState := { seen_urls := [], seen_titles := [] }

/-- `RSSEngine._is_duplicate_title`: fuzzy-compare against the most recent
500 titles of this pass (`self.seen_titles[-500:]`, embedded as
`drop (length - 500)`). -/
def is_duplicate_title (st : EngineState) (title : Str) : Bool :=
  let title_lower := pyLower title
  (st.seen_titles.drop (st.seen_titles.length - 500)).any (fun seen =>
    decide (FUZZY_MATCH_THRESHOLD ≤ sm_ratio title_lower (pyLower seen)))

/-- The first image-typed enclosure's `href or url` (`_parse_entry`'s
enclosure loop). -/
def firstImageEnclosure : List Enclosure → Option Str
  | [] => none
  | e :: rest =>
      if "image".toList.isPrefixOf e.type then
        match e.href with
        | some h => if h.isEmpty then e.url else some h
        | none => e.url
      else firstImageEnclosure rest

/-- `RSSEngine._parse_entry`.  `md5` is the opaque hex-digest function,
`now` the instant of the `datetime.now(timezone.utc)` calls made during this
entry.  Returns the candidate (or `none` for a discarded entry) and the
updated run state. -/
def parse_entry (md5 : Str → Str) (now : ℤ) (st : EngineState)
    (entry : FeedEntry) (source_name source_url region : String)
    (priority : ℤ) : Option Article × EngineState :=
  if falsy entry.title || falsy entry.link then (none, st)
  else
    let title := pyStrip (entry.title.getD [])
    let link := pyStrip (entry.link.getD [])
    let url_hash := md5 link
    if url_hash ∈ st.seen_urls then (none, st)
    else if is_duplicate_title st title then (none, st)
    else
      let st' : EngineState :=
        { seen_urls := url_hash :: st.seen_urls,
          seen_titles :=
            let ts := st.seen_titles ++ [title]
            if 5000 < ts.length then ts.drop (ts.length - 3000) else ts }
      let summary : Option Str :=
        match entry.summary with
        | some s => some (clean_html s)
        | none =>
            match entry.description with
            | some d => some (clean_html d)
            | none => none
      let published_at : ℤ :=
        match entry.published_parsed with
        | some ts => ts
        | none =>
            match entry.updated_parsed with
            | some ts => ts
            | none => now
      let image_url : Option Str :=
        match entry.media_content with
        | mc :: _ => mc
        | [] =>
            match entry.media_thumbnail with
            | mt :: _ => mt
            | [] => firstImageEnclosure entry.enclosures
      let category := classify_category title (summary.getD [])
      let importance_score :=
        calculate_importance title (summary.getD []) priority published_at now
      (some {
        title := title,
        summary := summary,
        source_name := source_name,
        source_url := source_url,
        url := link,
        region := region,
        category := category,
        published_at := published_at,
        scraped_at := now,
        importance_score := importance_score,
        image_url := image_url,
        language := "en" }, st')

/-! ## Fetching (`_fetch_feed`, `fetch_all_feeds`) -/

/-- Result of the HTTP GET for one source: a status with a body, a timeout,
or a transport error (the three paths of `_fetch_feed`'s first try block). -/
inductive FetchOutcome where
  | success (status : ℕ) (body : Str)
  | timeout
  | error
deriving DecidableEq

/-- One registry row (`feed_info` plus its region group) together with the
network outcome the pass observes for it. -/
structure SourceFeed where
  name : String
  url : String
  priority : ℤ
  region : String
  outcome : FetchOutcome

/-- The body of `_fetch_feed`'s entry loop: append the parsed candidate
when `_parse_entry` accepts, thread the run state either way. -/
def pfStep (md5 : Str → Str) (now : ℤ) (src : SourceFeed)
    (acc : List Article × EngineState) (e : FeedEntry) :
    List Article × EngineState :=
  match parse_entry md5 now acc.2 e src.name src.url src.region
      src.priority with
  | (some a, st2) => (acc.1 ++ [a], st2)
  | (none, st2) => (acc.1, st2)

/-- `RSSEngine._fetch_feed`.  `parse` embeds `feedparser.parse`; `none`
models a parser exception.  Every failure path returns the empty article
list (the function is total: nothing propagates to the caller).  The
per-entry `except ... continue` inside the loop is unreachable because the
embedded `parse_entry` is total. -/
def fetch_feed (parse : Str → Option (List FeedEntry)) (md5 : Str → Str)
    (now : ℤ) (st : EngineState) (src : SourceFeed) :
    List Article × EngineState :=
  match src.outcome with
  | FetchOutcome.timeout => ([], st)
  | FetchOutcome.error => ([], st)
  | FetchOutcome.success status body =>
      if status ≠ 200 then ([], st)
      else
        match parse body with
        | none => ([], st)
        | some entries => entries.foldl (pfStep md5 now src) ([], st)

/-- The priority filter of `fetch_all_feeds`
(`feed_info.get("priority", 3) > priority_filter → continue`). -/
def select_feeds (feeds : List SourceFeed) (pf : Option ℤ) : List SourceFeed :=
  match pf with
  | some p => feeds.filter (fun f => decide (f.priority ≤ p))
  | none => feeds

/-- One source's contribution in `fetch_all_feeds`'s gather loop. -/
def gfStep (parse : Str → Option (List FeedEntry)) (md5 : Str → Str)
    (now : ℤ) (acc : List Article × EngineState) (f : SourceFeed) :
    List Article × EngineState :=
  let r := fetch_feed parse md5 now acc.2 f
  (acc.1 ++ r.1, r.2)

/-- Accumulate the per-source results in task order (the dedup state threads
through sequentially; within one asyncio pass parsing is serialized). -/
def gather_feeds (parse : Str → Option (List FeedEntry)) (md5 : Str → Str)
    (now : ℤ) (feeds : List SourceFeed) (st : EngineState) :
    List Article × EngineState :=
  feeds.foldl (gfStep parse md5 now) ([], st)

/-- Descending-by-score order used by
`all_articles.sort(key=..., reverse=True)`. -/
def scoreGE (x y : Article) : Prop := y.importance_score ≤ x.importance_score

instance : DecidableRel scoreGE := fun x y =>
  inferInstanceAs (Decidable (y.importance_score ≤ x.importance_score))

instance : IsTotal Article scoreGE :=
  ⟨fun x y => le_total y.importance_score x.importance_score⟩

instance : IsTrans Article scoreGE :=
  ⟨fun _ _ _ hxy hyz => le_trans hyz hxy⟩

/-- Python `list.sort(key=lambda a: a["importance_score"], reverse=True)` is
a stable descending sort; stable sorts with the same key order have a unique
result, embedded here as insertion sort. -/
def sortByScoreDesc (l : List Article) : List Article :=
  l.insertionSort scoreGE

/-- `RSSEngine.fetch_all_feeds`: clear the run state, fetch the selected
sources, concatenate, sort by descending importance.  The incoming engine
state is cleared first (`self.seen_urls.clear(); self.seen_titles.clear()`),
hence the `_st` parameter is unused. -/
def fetch_all_feeds (parse : Str → Option (List FeedEntry)) (md5 : Str → Str)
    (now : ℤ) (_st : EngineState) (feeds : List SourceFeed) (pf : Option ℤ) :
    List Article × EngineState :=
  let r := gather_feeds parse md5 now (select_feeds feeds pf) emptyState
  (sortByScoreDesc r.1, r.2)

/-! ## Storage (`fetch_and_store`) and retention cleanup -/

/-- One `INSERT ... ON CONFLICT (url) DO NOTHING`: the store keeps the first
writer's row; the returned flag is `rowcount > 0`. -/
def insert_article (store : List Article) (a : Article) :
    List Article × Bool :=
  if store.any (fun b => decide (b.url = a.url)) then (store, false)
  else (store ++ [a], true)

/-- One iteration of the storage loop: execute the insert, bump `stored`
when `rowcount > 0`. -/
def sfStep (acc : ℕ × List Article) (a : Article) : ℕ × List Article :=
  let r := insert_article acc.2 a
  (if r.2 then acc.1 + 1 else acc.1, r.1)

/-- The storage loop of `fetch_and_store`: insert each candidate in order,
counting the rows actually inserted. -/
def store_articles (articles : List Article) (store : List Article) :
    ℕ × List Article :=
  articles.foldl sfStep (0, store)

/-- `RSSEngine.fetch_and_store`: run a pass, store the candidates, return the
inserted count (the Redis caching and pub/sub notification do not touch the
store and are omitted). -/
def fetch_and_store (parse : Str → Option (List FeedEntry)) (md5 : Str → Str)
    (now : ℤ) (st : EngineState) (feeds : List SourceFeed) (pf : Option ℤ)
    (store : List Article) : ℕ × List Article :=
  let articles := (fetch_all_feeds parse md5 now st feeds pf).1
  if articles.isEmpty then (0, store)
  else store_articles articles store

/-- `scheduler.cleanup_old_articles`: delete the rows with
`scraped_at < now - timedelta(days=30)`. -/
def cleanup_old_articles (now : ℤ) (store : List Article) : List Article :=
  let cutoff := now - 30 * 86400
  store.filter (fun a => decide (¬ a.scraped_at < cutoff))


/-! ## Concrete fixtures for witnesses and concrete claim instances -/

/-- A stand-in digest function for concrete instances (theorems quantify
over the digest function; witnesses may pick any). -/
def idHash : Str → Str := fun s => s

/-- A feed entry with every attribute absent. -/
def emptyEntry : FeedEntry :=
  { title := none, link := none, summary := none, description := none,
    published_parsed := none, updated_parsed := none,
    media_content := [], media_thumbnail := [], enclosures := [] }

def quakeTitle1 : Str := "Earthquake strikes Turkey, dozens dead".toList

def quakeTitle2 : Str := "Earthquake strikes Turkey — dozens dead".toList

def quakeEntry1 : FeedEntry :=
  { emptyEntry with
    title := some quakeTitle1,
    link := some "https://example.com/quake-a".toList }

def quakeEntry2 : FeedEntry :=
  { emptyEntry with
    title := some quakeTitle2,
    link := some "https://example.com/quake-b".toList }

/-- An entry with no parseable published or updated time (claim C10). -/
def ndEntry : FeedEntry :=
  { emptyEntry with
    title := some "hello world".toList,
    link := some "https://example.com/nd".toList }

/-- The candidate `_parse_entry` builds from `ndEntry` at `now = 0`,
tier 1, run state empty. -/
def ndArticle : Article :=
  { title := "hello world".toList, summary := none, source_name := "src",
    source_url := "https://example.com", url := "https://example.com/nd".toList,
    region := "world", category := "general", published_at := 0,
    scraped_at := 0, importance_score := 5, image_url := none,
    language := "en" }

def ndState : EngineState :=
  { seen_urls := ["https://example.com/nd".toList],
    seen_titles := ["hello world".toList] }

/-- An entry with a title but no link (claim C5 witness). -/
def noLinkEntry : FeedEntry :=
  { emptyEntry with title := some "hello".toList }

/-- A stored item with a given ingestion instant (claim C7). -/
def mkArt (scr : ℤ) : Article :=
  { title := "t".toList, summary := none, source_name := "s",
    source_url := "u", url := "https://example.com/t".toList,
    region := "world", category := "general", published_at := 0,
    scraped_at := scr, importance_score := 0, image_url := none,
    language := "en" }

def art31 : Article := mkArt (-(31 * 86400))

def art29 : Article := mkArt (-(29 * 86400))

/-- A source whose fetch succeeds with status 200 (claims C2, C6). -/
def ndSource : SourceFeed :=
  { name := "src", url := "https://example.com", priority := 1,
    region := "world", outcome := FetchOutcome.success 200 "body".toList }

/-- A source whose fetch returns HTTP 503 (claim C6). -/
def badSource : SourceFeed :=
  { name := "down", url := "https://down.example.com", priority := 1,
    region := "world", outcome := FetchOutcome.success 503 "oops".toList }

/-- A parser that yields `ndEntry` for any body (claims C2, C6). -/
def ndParse : Str → Option (List FeedEntry) := fun _ => some [ndEntry]

/-! ## Theorems -/

theorem pyMaxFirst_skip_zeros (rest : List (String × ℕ)) (acc : String × ℕ) :
    (rest.filter (fun p => p.2 > 0)).foldl
        (fun best p => if p.2 > best.2 then p else best) acc =
      rest.foldl (fun best p => if p.2 > best.2 then p else best) acc := by
  induction rest generalizing acc with
  | nil => rfl
  | cons q rest ih =>
      by_cases hq : q.2 > 0
      · have hf : (q :: rest).filter (fun p => p.2 > 0) =
            q :: rest.filter (fun p => p.2 > 0) := by
          simp [List.filter_cons, hq]
        rw [hf, List.foldl_cons, List.foldl_cons]
        exact ih (if q.2 > acc.2 then q else acc)
      · have hq0 : q.2 = 0 := by omega
        have hf : (q :: rest).filter (fun p => p.2 > 0) =
            rest.filter (fun p => p.2 > 0) := by
          simp [List.filter_cons, hq0]
        have hstep : (if q.2 > acc.2 then q else acc) = acc := by
          have : ¬ (q.2 > acc.2) := by omega
          exact if_neg this
        rw [hf, List.foldl_cons, hstep]
        exact ih acc

/-- Folding the first-max accumulator over a scored table: starting from the
sentinel ("general", 0) agrees with starting from the first positive entry. -/
theorem maxFold_general (l : List (String × ℕ)) :
    (l.foldl (fun best p => if p.2 > best.2 then p else best)
        (("general", 0) : String × ℕ)).1 =
      match l.filter (fun p => p.2 > 0) with
      | [] => "general"
      | s :: rest =>
          (rest.foldl (fun best p => if p.2 > best.2 then p else best) s).1 := by
  induction l with
  | nil => rfl
  | cons q l ih =>
      by_cases hq : q.2 > 0
      · have hf : (q :: l).filter (fun p => p.2 > 0) =
            q :: l.filter (fun p => p.2 > 0) := by
          simp [List.filter_cons, hq]
        rw [List.foldl_cons, hf]
        have hstep : (if q.2 > (("general", 0) : String × ℕ).2 then q
            else ("general", 0)) = q := if_pos hq
        rw [hstep]
        exact congrArg Prod.fst (pyMaxFirst_skip_zeros l q).symm
      · have hq0 : q.2 = 0 := by omega
        have hf : (q :: l).filter (fun p => p.2 > 0) =
            l.filter (fun p => p.2 > 0) := by
          simp [List.filter_cons, hq0]
        have hstep : (if q.2 > (("general", 0) : String × ℕ).2 then q
            else ("general", 0)) = ("general", 0) := if_neg hq
        rw [List.foldl_cons, hf, hstep]
        exact ih

/-- Helper: `filterMap` of the positive-score dict equals filtering the scored table. -/
theorem scores_filterMap (text : Str) (tbl : List (String × List String)) :
    tbl.filterMap (fun p =>
        let sc := categoryScore text p.2
        if sc > 0 then some (p.1, sc) else none) =
      (tbl.map (fun p => (p.1, categoryScore text p.2))).filter
        (fun p => p.2 > 0) := by
  induction tbl with
  | nil => rfl
  | cons q l ih =>
      by_cases hq : categoryScore text q.2 > 0
      · have h1 : (let sc := categoryScore text q.2
            if sc > 0 then some (q.1, sc) else none) =
              some (q.1, categoryScore text q.2) := by
          simp only [if_pos hq]
        have h2 : ((q.1, categoryScore text q.2) ::
              l.map (fun p => (p.1, categoryScore text p.2))).filter
                (fun p => p.2 > 0) =
            (q.1, categoryScore text q.2) ::
              (l.map (fun p => (p.1, categoryScore text p.2))).filter
                (fun p => p.2 > 0) := by
          simp [List.filter_cons, hq]
        rw [List.filterMap_cons, h1, List.map_cons, h2, ih]
      · have h1 : (let sc := categoryScore text q.2
            if sc > 0 then some (q.1, sc) else none) = none := by
          simp only [if_neg hq]
        have h2 : ((q.1, categoryScore text q.2) ::
              l.map (fun p => (p.1, categoryScore text p.2))).filter
                (fun p => p.2 > 0) =
            (l.map (fun p => (p.1, categoryScore text p.2))).filter
                (fun p => p.2 > 0) := by
          simp [List.filter_cons, hq]
        rw [List.filterMap_cons, h1, List.map_cons, h2, ih]

/-- C4 (general half): the code's classifier coincides with the
specification's highest-count / first-declared-tiebreak / "general"-default
rule. -/
theorem classify_category_eq_spec (title summary : Str) :
    classify_category title summary = spec_classify title summary := by
  simp only [classify_category, spec_classify, pyMaxFirst]
  rw [scores_filterMap]
  rw [← maxFold_general]
  rw [List.foldl_map]

theorem breakingBonus_eq_any (kws : List String) (text : Str) :
    breakingBonus kws text = if kws.any (kwHit text) then 3 else 0 := by
  induction kws with
  | nil => simp [breakingBonus]
  | cons k rest ih =>
      by_cases h : kwHit text k = true
      · simp [breakingBonus, h]
      · simp [breakingBonus, h, ih]

theorem calculate_importance_eq_spec (title summary : Str) (tier : ℤ)
    (published_at now : ℤ) :
    calculate_importance title summary tier published_at now =
      spec_importance title summary tier published_at now := by
  simp only [calculate_importance, spec_importance, breakingBonus_eq_any]
  split_ifs <;> (congr 1; ring_nf)

/-- C1: for every title, summary, source tier and pair of instants, the
importance score computed by `_calculate_importance` equals, after clamping
to [0,10] and rounding to 2 decimals: `max 0 (4 - tier)`, plus 3.0 exactly
once if any breaking keyword occurs in the lowercased title+summary, plus
`min (high-importance hits) 4`, plus the mutually exclusive recency term
(+2 under 30 min, +1 under 1 h, -1 over 24 h, else 0). -/
theorem C1_importance_score_formula (title summary : Str) (tier : ℤ)
    (published_at now : ℤ) :
    calculate_importance title summary tier published_at now =
      spec_importance title summary tier published_at now :=
  calculate_importance_eq_spec title summary tier published_at now

/-- C4: `_classify_category` returns the category with the strictly highest
keyword-hit count, ties keeping table-declaration order, and "general" on
zero matches; in particular a text containing "ceasefire", "summit" and
"ambassador" classifies as diplomacy even though "ceasefire" also scores one
hit for the conflict category. -/
theorem C4_classification_majority_rule :
    (∀ title summary : Str,
        classify_category title summary = spec_classify title summary) ∧
    classify_category "ceasefire summit ambassador".toList [] = "diplomacy" :=
  ⟨classify_category_eq_spec, by decide⟩

/-- C5: an entry whose `title` or `link` is missing (or empty) is discarded
at the parser boundary: `_parse_entry` returns `None` and leaves the run
state untouched, so the entry reaches neither classification, scoring, nor
the dedup structures; in particular an entry missing both is discarded. -/
theorem C5_missing_title_or_link_dropped (md5 : Str → Str) (now : ℤ)
    (st : EngineState) (entry : FeedEntry) (sn su rg : String) (p : ℤ)
    (h : falsy entry.title = true ∨ falsy entry.link = true) :
    parse_entry md5 now st entry sn su rg p = (none, st) := by
  unfold parse_entry
  rcases h with h | h <;> simp [h]

theorem C5_witness :
    parse_entry idHash 0 emptyState noLinkEntry "s" "u" "world" 1 =
      (none, emptyState) :=
  C5_missing_title_or_link_dropped idHash 0 emptyState noLinkEntry
    "s" "u" "world" 1 (Or.inr (by decide))

/-- C7: the retention cleanup keeps exactly the items whose ingestion
instant `scraped_at` is at most 30 days before `now` (deletes exactly those
strictly older), independently of `published_at`, and the survivors form a
sublist of the store (no reordering or modification). -/
theorem C7_retention_cleanup :
    (∀ (now : ℤ) (store : List Article) (a : Article),
        a ∈ cleanup_old_articles now store ↔
          a ∈ store ∧ now - a.scraped_at ≤ 30 * 86400) ∧
    (∀ (now : ℤ) (store : List Article),
        List.Sublist (cleanup_old_articles now store) store) := by
  constructor
  · intro now store a
    unfold cleanup_old_articles
    rw [List.mem_filter]
    constructor
    · rintro ⟨hmem, hp⟩
      refine ⟨hmem, ?_⟩
      have := of_decide_eq_true hp
      omega
    · rintro ⟨hmem, hle⟩
      refine ⟨hmem, ?_⟩
      apply decide_eq_true
      omega
  · intro now store
    exact List.filter_sublist _

theorem C7_witness :
    art31 ∉ cleanup_old_articles 0 [art31, art29] ∧
    art29 ∈ cleanup_old_articles 0 [art31, art29] := by
  constructor
  · intro hmem
    have h2 := ((C7_retention_cleanup.1 0 [art31, art29] art31).mp hmem).2
    revert h2
    decide
  · exact (C7_retention_cleanup.1 0 [art31, art29] art29).mpr
      ⟨by decide, by decide⟩

/-- Characterization of a successful `_parse_entry` call: the returned
candidate's fields and the state update. -/
theorem parse_entry_success (md5 : Str → Str) (now : ℤ) (st : EngineState)
    (entry : FeedEntry) (sn su rg : String) (p : ℤ)
    (a : Article) (st2 : EngineState)
    (hres : parse_entry md5 now st entry sn su rg p = (some a, st2)) :
    a.title = pyStrip (entry.title.getD []) ∧
    a.url = pyStrip (entry.link.getD []) ∧
    a.published_at = (match entry.published_parsed with
      | some ts => ts
      | none =>
          match entry.updated_parsed with
          | some ts => ts
          | none => now) ∧
    a.scraped_at = now ∧
    a.importance_score =
      calculate_importance a.title (a.summary.getD []) p a.published_at now ∧
    a.category = classify_category a.title (a.summary.getD []) ∧
    st2.seen_urls = md5 (pyStrip (entry.link.getD [])) :: st.seen_urls ∧
    st2.seen_titles =
      (let ts := st.seen_titles ++ [pyStrip (entry.title.getD [])]
       if 5000 < ts.length then ts.drop (ts.length - 3000) else ts) := by
  simp only [parse_entry] at hres
  split_ifs at hres with h1 h2 h3 h4
  · simp at hres
  · simp at hres
  · simp at hres
  · simp only [Prod.mk.injEq, Option.some.injEq] at hres
    obtain ⟨ha, hst⟩ := hres
    subst ha
    subst hst
    refine ⟨rfl, rfl, rfl, rfl, rfl, rfl, rfl, ?_⟩
    have h4a : 5000 < st.seen_titles.length + 1 := by simpa using h4
    simp [h4a]
  · simp only [Prod.mk.injEq, Option.some.injEq] at hres
    obtain ⟨ha, hst⟩ := hres
    subst ha
    subst hst
    refine ⟨rfl, rfl, rfl, rfl, rfl, rfl, rfl, ?_⟩
    have h4a : ¬ 5000 < st.seen_titles.length + 1 := by simpa using h4
    simp [h4a]

/-- C10: an entry with neither a parseable published time nor a parseable
updated time gets `published_at := now` (the scrape instant), and because
`_calculate_importance` then sees age `now - pub < 30 min`, the score always
contains the +2.0 recency bonus regardless of the true publication time. -/
theorem C10_default_published_gets_recency_bonus (md5 : Str → Str) (now : ℤ)
    (st : EngineState) (entry : FeedEntry) (sn su rg : String) (p : ℤ)
    (a : Article) (st2 : EngineState)
    (hpub : entry.published_parsed = none)
    (hupd : entry.updated_parsed = none)
    (hres : parse_entry md5 now st entry sn su rg p = (some a, st2)) :
    a.published_at = now ∧
    a.importance_score =
      calculate_importance a.title (a.summary.getD []) p now now ∧
    (∀ (t s : Str) (pr pub : ℤ), now - pub < 30 * 60 →
        calculate_importance t s pr pub now =
          round2 (max 0 (min 10 (((max 0 (4 - pr) : ℤ) : ℚ) +
            breakingBonus BREAKING_KEYWORDS (pyLower (t ++ [' '] ++ s)) +
            ((min (HIGH_IMPORTANCE_KEYWORDS.countP
                (kwHit (pyLower (t ++ [' '] ++ s)))) 4 : ℕ) : ℚ) + 2)))) := by
  obtain ⟨hti, hu, hpubf, hscr, himp, hcat, hurls, htit⟩ :=
    parse_entry_success md5 now st entry sn su rg p a st2 hres
  rw [hpub, hupd] at hpubf
  refine ⟨hpubf, ?_, ?_⟩
  · rw [himp, hpubf]
  · intro t s pr pub hage
    simp only [calculate_importance]
    rw [if_pos hage]
    congr 1
    congr 1
    congr 1
    ring

theorem C10_witness : ndArticle.published_at = 0 :=
  (C10_default_published_gets_recency_bonus idHash 0 emptyState ndEntry
    "src" "https://example.com" "world" 1 ndArticle ndState rfl rfl
    (by with_unfolding_all decide)).1

/-! ### Store-writer lemmas (claim C2) -/

theorem insert_article_noop (store : List Article) (a : Article)
    (h : a.url ∈ store.map Article.url) :
    insert_article store a = (store, false) := by
  unfold insert_article
  rw [if_pos]
  rw [List.any_eq_true]
  obtain ⟨b, hb, hba⟩ := List.mem_map.mp h
  exact ⟨b, hb, decide_eq_true hba⟩

theorem insert_article_true_len (s : List Article) (a : Article)
    (h : (insert_article s a).2 = true) :
    (insert_article s a).1.length = s.length + 1 := by
  unfold insert_article at h ⊢
  by_cases hc : (s.any fun b => decide (b.url = a.url)) = true
  · rw [if_pos hc] at h
    simp at h
  · rw [if_neg hc]
    simp

theorem insert_article_false_eq (s : List Article) (a : Article)
    (h : (insert_article s a).2 = false) :
    (insert_article s a).1 = s := by
  unfold insert_article at h ⊢
  by_cases hc : (s.any fun b => decide (b.url = a.url)) = true
  · rw [if_pos hc]
  · rw [if_neg hc] at h
    simp at h

theorem insert_article_url_mem (store : List Article) (a : Article) :
    a.url ∈ (insert_article store a).1.map Article.url := by
  unfold insert_article
  split_ifs with h
  · rw [List.any_eq_true] at h
    obtain ⟨b, hb, hba⟩ := h
    exact List.mem_map.mpr ⟨b, hb, of_decide_eq_true hba⟩
  · simp

theorem insert_article_url_mono (store : List Article) (a : Article) (u : Str)
    (h : u ∈ store.map Article.url) :
    u ∈ (insert_article store a).1.map Article.url := by
  unfold insert_article
  split_ifs
  · exact h
  · rw [List.map_append]
    exact List.mem_append_left _ h

theorem sfStep_eq (n : ℕ) (s : List Article) (a : Article) :
    sfStep (n, s) a =
      (if (insert_article s a).2 then n + 1 else n, (insert_article s a).1) :=
  rfl

theorem foldl_sfStep_snd_indep (l : List Article) :
    ∀ (n m : ℕ) (s : List Article),
      (l.foldl sfStep (n, s)).2 = (l.foldl sfStep (m, s)).2 := by
  induction l with
  | nil => intro n m s; rfl
  | cons a rest ih =>
      intro n m s
      rw [List.foldl_cons, List.foldl_cons, sfStep_eq, sfStep_eq]
      exact ih _ _ _

theorem foldl_sfStep_len (l : List Article) :
    ∀ (n : ℕ) (s : List Article),
      (l.foldl sfStep (n, s)).2.length + n =
        s.length + (l.foldl sfStep (n, s)).1 := by
  induction l with
  | nil => intro n s; rfl
  | cons a rest ih =>
      intro n s
      rw [List.foldl_cons, sfStep_eq]
      by_cases hi : (insert_article s a).2 = true
      · rw [hi]
        simp only [if_true]
        have hlen := insert_article_true_len s a hi
        have := ih (n + 1) (insert_article s a).1
        omega
      · rw [Bool.not_eq_true] at hi
        rw [hi]
        simp only [Bool.false_eq_true, if_false]
        have hlen := insert_article_false_eq s a hi
        have hih := ih n (insert_article s a).1
        rw [hlen] at hih ⊢
        omega

theorem foldl_sfStep_url_mono (l : List Article) :
    ∀ (n : ℕ) (s : List Article) (u : Str), u ∈ s.map Article.url →
      u ∈ ((l.foldl sfStep (n, s)).2).map Article.url := by
  induction l with
  | nil => intro n s u h; exact h
  | cons a rest ih =>
      intro n s u h
      rw [List.foldl_cons, sfStep_eq]
      exact ih _ _ _ (insert_article_url_mono s a u h)

theorem store_articles_url_superset (articles : List Article) :
    ∀ (store : List Article) (a : Article), a ∈ articles →
      a.url ∈ (store_articles articles store).2.map Article.url := by
  induction articles with
  | nil => intro store a ha; simp at ha
  | cons b rest ih =>
      intro store a ha
      unfold store_articles
      rw [List.foldl_cons, sfStep_eq]
      rcases List.mem_cons.mp ha with h | h
      · subst h
        exact foldl_sfStep_url_mono rest _ _ _ (insert_article_url_mem store a)
      · have hih := ih (insert_article store b).1 a h
        unfold store_articles at hih
        rw [foldl_sfStep_snd_indep rest _ 0]
        exact hih

theorem store_articles_all_seen (articles : List Article) :
    ∀ (store : List Article),
      (∀ a ∈ articles, a.url ∈ store.map Article.url) →
      store_articles articles store = (0, store) := by
  induction articles with
  | nil => intro store _; rfl
  | cons a rest ih =>
      intro store h
      unfold store_articles
      rw [List.foldl_cons, sfStep_eq, insert_article_noop store a (h a (by simp))]
      simp only [Bool.false_eq_true, if_false]
      exact ih store (fun b hb => h b (by simp [hb]))

theorem find?_append_singleton (l : List Article) (x : Article)
    (p : Article → Bool) (h : (l.find? p).isSome) :
    (l ++ [x]).find? p = l.find? p := by
  induction l with
  | nil => simp at h
  | cons b rest ih =>
      by_cases hb : p b = true
      · simp [List.find?_cons_of_pos _ hb]
      · rw [Bool.not_eq_true] at hb
        rw [List.find?_cons_of_neg _ (by simp [hb])] at h
        rw [List.cons_append, List.find?_cons_of_neg _ (by simp [hb]),
          List.find?_cons_of_neg _ (by simp [hb])]
        exact ih h

theorem insert_article_find_preserve (store : List Article) (a : Article)
    (p : Article → Bool) (h : (store.find? p).isSome) :
    (insert_article store a).1.find? p = store.find? p := by
  unfold insert_article
  split_ifs
  · rfl
  · exact find?_append_singleton store a p h

theorem foldl_sfStep_find_preserve (l : List Article) :
    ∀ (n : ℕ) (s : List Article) (p : Article → Bool), (s.find? p).isSome →
      ((l.foldl sfStep (n, s)).2).find? p = s.find? p := by
  induction l with
  | nil => intro n s p _; rfl
  | cons a rest ih =>
      intro n s p h
      rw [List.foldl_cons, sfStep_eq]
      rw [ih _ _ p (by rw [insert_article_find_preserve s a p h]; exact h)]
      exact insert_article_find_preserve s a p h

/-- C2: the store writer is idempotent, first-writer-wins.  (i) the returned
count always equals the number of rows actually inserted in that call;
(ii) a candidate whose url already exists is a silent no-op, leaving the
stored row unchanged (also through a whole storage pass); (iii) re-running
`fetch_and_store` over the same upstream outcomes inserts nothing: it
returns 0 and leaves the store exactly as the first run left it. -/
theorem C2_store_idempotence :
    (∀ (parse : Str → Option (List FeedEntry)) (md5 : Str → Str) (now : ℤ)
        (st : EngineState) (feeds : List SourceFeed) (pf : Option ℤ)
        (store : List Article),
        (fetch_and_store parse md5 now st feeds pf store).2.length =
          store.length + (fetch_and_store parse md5 now st feeds pf store).1) ∧
    (∀ (store : List Article) (a : Article),
        a.url ∈ store.map Article.url →
        insert_article store a = (store, false)) ∧
    (∀ (store articles : List Article) (p : Article → Bool),
        (store.find? p).isSome →
        (store_articles articles store).2.find? p = store.find? p) ∧
    (∀ (parse : Str → Option (List FeedEntry)) (md5 : Str → Str) (now : ℤ)
        (st st2 : EngineState) (feeds : List SourceFeed) (pf : Option ℤ)
        (store : List Article),
        fetch_and_store parse md5 now st2 feeds pf
            (fetch_and_store parse md5 now st feeds pf store).2 =
          (0, (fetch_and_store parse md5 now st feeds pf store).2)) := by
  refine ⟨?_, ?_, ?_, ?_⟩
  · intro parse md5 now st feeds pf store
    simp only [fetch_and_store]
    by_cases he : ((fetch_all_feeds parse md5 now st feeds pf).1).isEmpty = true
    · simp [he]
    · rw [Bool.not_eq_true] at he
      simp only [he, Bool.false_eq_true, if_false]
      have := foldl_sfStep_len (fetch_all_feeds parse md5 now st feeds pf).1 0 store
      unfold store_articles
      omega
  · exact insert_article_noop
  · intro store articles p h
    exact foldl_sfStep_find_preserve articles 0 store p h
  · intro parse md5 now st st2 feeds pf store
    have harts : (fetch_all_feeds parse md5 now st2 feeds pf).1 =
        (fetch_all_feeds parse md5 now st feeds pf).1 := rfl
    simp only [fetch_and_store, harts]
    by_cases he : ((fetch_all_feeds parse md5 now st feeds pf).1).isEmpty = true
    · simp [he]
    · rw [Bool.not_eq_true] at he
      simp only [he, Bool.false_eq_true, if_false]
      exact store_articles_all_seen _ _
        (fun a ha => store_articles_url_superset _ store a ha)

theorem C2_witness :
    insert_article [ndArticle] ndArticle = ([ndArticle], false) ∧
    fetch_and_store ndParse idHash 0 emptyState [ndSource] none
        (fetch_and_store ndParse idHash 0 emptyState [ndSource] none []).2 =
      (0, (fetch_and_store ndParse idHash 0 emptyState [ndSource] none []).2) :=
  ⟨C2_store_idempotence.2.1 [ndArticle] ndArticle (by with_unfolding_all decide),
   C2_store_idempotence.2.2.2 ndParse idHash 0 emptyState emptyState
     [ndSource] none []⟩

/-! ### Bounded seen-titles lemmas (claim C9) -/

theorem parse_entry_titles_bound (md5 : Str → Str) (now : ℤ)
    (st : EngineState) (entry : FeedEntry) (sn su rg : String) (p : ℤ)
    (h : st.seen_titles.length ≤ 5000) :
    ((parse_entry md5 now st entry sn su rg p).2).seen_titles.length ≤ 5000 := by
  simp only [parse_entry]
  split_ifs with h1 h2 h3 h4
  · exact h
  · exact h
  · exact h
  · simp only [List.length_drop, List.length_append, List.length_cons]
    omega
  · simp only [List.length_append]
    simp only [List.length_append, List.length_cons] at h4
    simp
    omega

theorem pfStep_snd (md5 : Str → Str) (now : ℤ) (src : SourceFeed)
    (acc : List Article × EngineState) (e : FeedEntry) :
    (pfStep md5 now src acc e).2 =
      (parse_entry md5 now acc.2 e src.name src.url src.region src.priority).2 := by
  unfold pfStep
  cases hp : parse_entry md5 now acc.2 e src.name src.url src.region src.priority with
  | mk o st2 => cases o <;> rfl

theorem pfStep_fold_titles_bound (md5 : Str → Str) (now : ℤ)
    (src : SourceFeed) (entries : List FeedEntry) :
    ∀ (acc : List Article × EngineState), acc.2.seen_titles.length ≤ 5000 →
      ((entries.foldl (pfStep md5 now src) acc).2).seen_titles.length ≤ 5000 := by
  induction entries with
  | nil => intro acc h; exact h
  | cons e rest ih =>
      intro acc h
      rw [List.foldl_cons]
      apply ih
      rw [pfStep_snd]
      exact parse_entry_titles_bound md5 now acc.2 e src.name src.url
        src.region src.priority h

theorem fetch_feed_titles_bound (parse : Str → Option (List FeedEntry))
    (md5 : Str → Str) (now : ℤ) (st : EngineState) (src : SourceFeed)
    (h : st.seen_titles.length ≤ 5000) :
    ((fetch_feed parse md5 now st src).2).seen_titles.length ≤ 5000 := by
  unfold fetch_feed
  split
  · exact h
  · exact h
  · split
    · exact h
    · split
      · exact h
      · next entries _ =>
          exact pfStep_fold_titles_bound md5 now src entries ([], st) h

theorem gather_titles_bound (parse : Str → Option (List FeedEntry))
    (md5 : Str → Str) (now : ℤ) (feeds : List SourceFeed) :
    ∀ (acc : List Article × EngineState), acc.2.seen_titles.length ≤ 5000 →
      ((feeds.foldl (gfStep parse md5 now) acc).2).seen_titles.length ≤ 5000 := by
  induction feeds with
  | nil => intro acc h; exact h
  | cons f rest ih =>
      intro acc h
      rw [List.foldl_cons]
      apply ih
      exact fetch_feed_titles_bound parse md5 now acc.2 f h

/-- C9: the run-scoped seen-titles list is bounded.  The state parameter is
cleared at the start of each pass (the result is independent of it); one
`_parse_entry` step preserves `length ≤ 5000`; when an accepted title pushes
the length past 5000 the list is replaced at once by its 3000 most recent
entries in order (`ts[-3000:]`, so length exactly 3000); consequently the
whole pass keeps the list at 5000 or fewer titles. -/
theorem C9_seen_titles_bounded :
    (∀ (parse : Str → Option (List FeedEntry)) (md5 : Str → Str) (now : ℤ)
        (st st2 : EngineState) (feeds : List SourceFeed) (pf : Option ℤ),
        fetch_all_feeds parse md5 now st feeds pf =
          fetch_all_feeds parse md5 now st2 feeds pf) ∧
    (∀ (md5 : Str → Str) (now : ℤ) (st : EngineState) (entry : FeedEntry)
        (sn su rg : String) (p : ℤ),
        st.seen_titles.length ≤ 5000 →
        ((parse_entry md5 now st entry sn su rg p).2).seen_titles.length ≤ 5000) ∧
    (∀ (md5 : Str → Str) (now : ℤ) (st : EngineState) (entry : FeedEntry)
        (sn su rg : String) (p : ℤ) (a : Article) (st2 : EngineState),
        parse_entry md5 now st entry sn su rg p = (some a, st2) →
        5000 < st.seen_titles.length + 1 →
        st2.seen_titles =
          (st.seen_titles ++ [pyStrip (entry.title.getD [])]).drop
            (st.seen_titles.length + 1 - 3000) ∧
        (st.seen_titles.length ≤ 5000 → st2.seen_titles.length = 3000)) ∧
    (∀ (parse : Str → Option (List FeedEntry)) (md5 : Str → Str) (now : ℤ)
        (st : EngineState) (feeds : List SourceFeed) (pf : Option ℤ),
        ((fetch_all_feeds parse md5 now st feeds pf).2).seen_titles.length ≤ 5000) := by
  refine ⟨?_, ?_, ?_, ?_⟩
  · intro parse md5 now st st2 feeds pf
    rfl
  · intro md5 now st entry sn su rg p h
    exact parse_entry_titles_bound md5 now st entry sn su rg p h
  · intro md5 now st entry sn su rg p a st2 hres hover
    obtain ⟨hti, hu, hpubf, hscr, himp, hcat, hurls, htit⟩ :=
      parse_entry_success md5 now st entry sn su rg p a st2 hres
    have htit2 : st2.seen_titles =
        if 5000 < (st.seen_titles ++ [pyStrip (entry.title.getD [])]).length then
          (st.seen_titles ++ [pyStrip (entry.title.getD [])]).drop
            ((st.seen_titles ++ [pyStrip (entry.title.getD [])]).length - 3000)
        else st.seen_titles ++ [pyStrip (entry.title.getD [])] := htit
    have hcond : 5000 <
        (st.seen_titles ++ [pyStrip (entry.title.getD [])]).length := by
      simp
      omega
    rw [if_pos hcond] at htit2
    have hlen : (st.seen_titles ++ [pyStrip (entry.title.getD [])]).length =
        st.seen_titles.length + 1 := by simp
    constructor
    · rw [htit2, hlen]
    · intro hb
      rw [htit2]
      simp only [List.length_drop]
      rw [hlen]
      omega
  · intro parse md5 now st feeds pf
    unfold fetch_all_feeds gather_feeds
    exact gather_titles_bound parse md5 now (select_feeds feeds pf)
      ([], emptyState) (by simp [emptyState])

theorem C9_witness :
    ((parse_entry idHash 0 emptyState ndEntry "src" "https://example.com"
        "world" 1).2).seen_titles.length ≤ 5000 :=
  C9_seen_titles_bounded.2.1 idHash 0 emptyState ndEntry "src"
    "https://example.com" "world" 1 (by decide)

/-! ### Failure isolation lemmas (claim C6) -/

theorem gather_skip_failed (parse : Str → Option (List FeedEntry))
    (md5 : Str → Str) (now : ℤ) (src : SourceFeed)
    (h : ∀ st2 : EngineState, fetch_feed parse md5 now st2 src = ([], st2))
    (l1 l2 : List SourceFeed) (st : EngineState) :
    gather_feeds parse md5 now (l1 ++ src :: l2) st =
      gather_feeds parse md5 now (l1 ++ l2) st := by
  unfold gather_feeds
  rw [List.foldl_append, List.foldl_append, List.foldl_cons]
  have hacc : ∀ acc : List Article × EngineState,
      gfStep parse md5 now acc src = acc := by
    intro acc
    unfold gfStep
    rw [h acc.2]
    simp
  rw [hacc]

/-- C6: a source whose fetch times out, hits a transport error, returns a
non-200 status (e.g. 503), or yields unparseable bytes contributes an empty
entry list (and leaves the run state untouched); and removing such a source
from a pass changes nothing for the other sources: the combined
`fetch_all_feeds` result is the same as if the failed source were absent. -/
theorem C6_source_failure_isolation :
    (∀ (parse : Str → Option (List FeedEntry)) (md5 : Str → Str) (now : ℤ)
        (st : EngineState) (src : SourceFeed),
        src.outcome = FetchOutcome.timeout →
        fetch_feed parse md5 now st src = ([], st)) ∧
    (∀ (parse : Str → Option (List FeedEntry)) (md5 : Str → Str) (now : ℤ)
        (st : EngineState) (src : SourceFeed),
        src.outcome = FetchOutcome.error →
        fetch_feed parse md5 now st src = ([], st)) ∧
    (∀ (parse : Str → Option (List FeedEntry)) (md5 : Str → Str) (now : ℤ)
        (st : EngineState) (src : SourceFeed) (status : ℕ) (body : Str),
        src.outcome = FetchOutcome.success status body → status ≠ 200 →
        fetch_feed parse md5 now st src = ([], st)) ∧
    (∀ (parse : Str → Option (List FeedEntry)) (md5 : Str → Str) (now : ℤ)
        (st : EngineState) (src : SourceFeed) (body : Str),
        src.outcome = FetchOutcome.success 200 body → parse body = none →
        fetch_feed parse md5 now st src = ([], st)) ∧
    (∀ (parse : Str → Option (List FeedEntry)) (md5 : Str → Str) (now : ℤ)
        (st : EngineState) (feeds1 feeds2 : List SourceFeed)
        (src : SourceFeed) (pf : Option ℤ),
        (∀ st2 : EngineState, fetch_feed parse md5 now st2 src = ([], st2)) →
        fetch_all_feeds parse md5 now st (feeds1 ++ src :: feeds2) pf =
          fetch_all_feeds parse md5 now st (feeds1 ++ feeds2) pf) := by
  refine ⟨?_, ?_, ?_, ?_, ?_⟩
  · intro parse md5 now st src hsrc
    unfold fetch_feed
    rw [hsrc]
  · intro parse md5 now st src hsrc
    unfold fetch_feed
    rw [hsrc]
  · intro parse md5 now st src status body hsrc hstatus
    unfold fetch_feed
    rw [hsrc]
    simp only [if_pos hstatus]
  · intro parse md5 now st src body hsrc hparse
    unfold fetch_feed
    rw [hsrc]
    simp only [ne_eq, not_true_eq_false, if_false, hparse]
  · intro parse md5 now st feeds1 feeds2 src pf h
    have hsel : gather_feeds parse md5 now
        (select_feeds (feeds1 ++ src :: feeds2) pf) emptyState =
        gather_feeds parse md5 now
          (select_feeds (feeds1 ++ feeds2) pf) emptyState := by
      cases pf with
      | none => exact gather_skip_failed parse md5 now src h feeds1 feeds2 emptyState
      | some pl =>
          simp only [select_feeds, List.filter_append, List.filter_cons]
          by_cases hk : (decide (src.priority ≤ pl)) = true
          · rw [hk]
            simp only [if_true]
            exact gather_skip_failed parse md5 now src h
              (feeds1.filter fun f => decide (f.priority ≤ pl))
              (feeds2.filter fun f => decide (f.priority ≤ pl)) emptyState
          · rw [Bool.not_eq_true] at hk
            rw [hk]
            simp only [Bool.false_eq_true, if_false]
    unfold fetch_all_feeds
    rw [hsel]

theorem C6_witness :
    fetch_all_feeds ndParse idHash 0 emptyState [ndSource, badSource] none =
      fetch_all_feeds ndParse idHash 0 emptyState [ndSource] none :=
  C6_source_failure_isolation.2.2.2.2 ndParse idHash 0 emptyState
    [ndSource] [] badSource none
    (fun st2 => C6_source_failure_isolation.2.2.1 ndParse idHash 0 st2
      badSource 503 "oops".toList rfl (by decide))

/-! ### Sorting lemmas (claim C8) -/

theorem filter_score_orderedInsert (v : ℚ) (a : Article) (l : List Article) :
    (l.orderedInsert scoreGE a).filter
        (fun x => decide (x.importance_score = v)) =
      if a.importance_score = v then
        a :: l.filter (fun x => decide (x.importance_score = v))
      else l.filter (fun x => decide (x.importance_score = v)) := by
  rw [List.orderedInsert_eq_take_drop, List.filter_append, List.filter_cons]
  have hl : l.filter (fun x => decide (x.importance_score = v)) =
      (l.takeWhile fun b => decide ¬ scoreGE a b).filter
          (fun x => decide (x.importance_score = v)) ++
        (l.dropWhile fun b => decide ¬ scoreGE a b).filter
          (fun x => decide (x.importance_score = v)) := by
    rw [← List.filter_append, List.takeWhile_append_dropWhile]
  by_cases hv : a.importance_score = v
  · rw [if_pos hv]
    have hb : decide (a.importance_score = v) = true := decide_eq_true hv
    rw [hb]
    simp only [if_true]
    have htw : (l.takeWhile fun b => decide ¬ scoreGE a b).filter
        (fun x => decide (x.importance_score = v)) = [] := by
      rw [List.filter_eq_nil_iff]
      intro x hx
      have hpx := List.mem_takeWhile_imp hx
      have hnot : ¬ scoreGE a x := by simpa using hpx
      intro hxv
      have hxv2 : x.importance_score = v := of_decide_eq_true hxv
      exact hnot (le_of_eq (hxv2.trans hv.symm))
    rw [hl, htw]
    simp
  · rw [if_neg hv]
    have hb : decide (a.importance_score = v) = false := decide_eq_false hv
    rw [hb]
    simp only [Bool.false_eq_true, if_false]
    rw [hl]

theorem sortByScoreDesc_filter (v : ℚ) (l : List Article) :
    (sortByScoreDesc l).filter (fun x => decide (x.importance_score = v)) =
      l.filter (fun x => decide (x.importance_score = v)) := by
  unfold sortByScoreDesc
  induction l with
  | nil => rfl
  | cons a rest ih =>
      simp only [List.insertionSort]
      rw [filter_score_orderedInsert]
      by_cases hv : a.importance_score = v
      · rw [if_pos hv, ih, List.filter_cons, decide_eq_true hv]
        simp
      · rw [if_neg hv, ih, List.filter_cons, decide_eq_false hv]
        simp

/-- C8: the candidate list handed to storage by `fetch_all_feeds` is the
stable descending sort, by importance score, of the concatenated per-source
results: it is sorted (every element's score is at least the next one's), it
is a permutation of the gathered list, and for every score value the
equal-score candidates appear in exactly their gathered (fetch-completion)
order. -/
theorem C8_candidates_sorted_stable (parse : Str → Option (List FeedEntry))
    (md5 : Str → Str) (now : ℤ) (st : EngineState)
    (feeds : List SourceFeed) (pf : Option ℤ) :
    (fetch_all_feeds parse md5 now st feeds pf).1 =
      sortByScoreDesc
        (gather_feeds parse md5 now (select_feeds feeds pf) emptyState).1 ∧
    List.Sorted scoreGE ((fetch_all_feeds parse md5 now st feeds pf).1) ∧
    List.Perm ((fetch_all_feeds parse md5 now st feeds pf).1)
      ((gather_feeds parse md5 now (select_feeds feeds pf) emptyState).1) ∧
    (∀ v : ℚ,
      ((fetch_all_feeds parse md5 now st feeds pf).1).filter
          (fun x => decide (x.importance_score = v)) =
        ((gather_feeds parse md5 now (select_feeds feeds pf) emptyState).1).filter
          (fun x => decide (x.importance_score = v))) := by
  refine ⟨rfl, ?_, ?_, ?_⟩
  · exact List.sorted_insertionSort scoreGE _
  · exact List.perm_insertionSort scoreGE _
  · intro v
    exact sortByScoreDesc_filter v _

/-! ### Deduplication lemmas (claim C3) -/

theorem is_duplicate_title_iff (st : EngineState) (title : Str) :
    is_duplicate_title st title = true ↔
      ∃ seen ∈ st.seen_titles.drop (st.seen_titles.length - 500),
        FUZZY_MATCH_THRESHOLD ≤ sm_ratio (pyLower title) (pyLower seen) := by
  unfold is_duplicate_title
  rw [List.any_eq_true]
  constructor
  · rintro ⟨x, hx, hr⟩
    exact ⟨x, hx, of_decide_eq_true hr⟩
  · rintro ⟨x, hx, hr⟩
    exact ⟨x, hx, decide_eq_true hr⟩

theorem parse_entry_rejects_duplicate (md5 : Str → Str) (now : ℤ)
    (st : EngineState) (entry : FeedEntry) (sn su rg : String) (p : ℤ)
    (ht : falsy entry.title = false) (hl : falsy entry.link = false)
    (h : md5 (pyStrip (entry.link.getD [])) ∈ st.seen_urls ∨
         is_duplicate_title st (pyStrip (entry.title.getD [])) = true) :
    parse_entry md5 now st entry sn su rg p = (none, st) := by
  simp only [parse_entry, ht, hl, Bool.or_false, Bool.false_eq_true, if_false]
  rcases h with h | h
  · rw [if_pos h]
  · by_cases hmem : md5 (pyStrip (entry.link.getD [])) ∈ st.seen_urls
    · rw [if_pos hmem]
    · rw [if_neg hmem, h]
      simp

set_option maxRecDepth 100000 in
set_option maxHeartbeats 2000000 in
/-- C3: within one pass an entry is rejected when the MD5 digest of its
stripped link is already in the run's seen-URL set or when its lowercased
title has similarity ratio at least 0.85 against any of the 500 most recent
accepted titles; an accepted entry's digest and title enter the run state
(so the very next entry already sees them); and of the two concrete
earthquake titles (whose ratio is at least 0.85) only the first is accepted
when both arrive in the same pass. -/
theorem C3_same_pass_deduplication :
    (∀ (md5 : Str → Str) (now : ℤ) (st : EngineState) (entry : FeedEntry)
        (sn su rg : String) (p : ℤ),
        falsy entry.title = false → falsy entry.link = false →
        (md5 (pyStrip (entry.link.getD [])) ∈ st.seen_urls ∨
         is_duplicate_title st (pyStrip (entry.title.getD [])) = true) →
        parse_entry md5 now st entry sn su rg p = (none, st)) ∧
    (∀ (st : EngineState) (title : Str),
        is_duplicate_title st title = true ↔
          ∃ seen ∈ st.seen_titles.drop (st.seen_titles.length - 500),
            FUZZY_MATCH_THRESHOLD ≤ sm_ratio (pyLower title) (pyLower seen)) ∧
    (∀ (md5 : Str → Str) (now : ℤ) (st : EngineState) (entry : FeedEntry)
        (sn su rg : String) (p : ℤ) (a : Article) (st2 : EngineState),
        parse_entry md5 now st entry sn su rg p = (some a, st2) →
        st2.seen_urls = md5 (pyStrip (entry.link.getD [])) :: st.seen_urls ∧
        pyStrip (entry.title.getD []) ∈ st2.seen_titles) ∧
    FUZZY_MATCH_THRESHOLD ≤ sm_ratio (pyLower quakeTitle2) (pyLower quakeTitle1) ∧
    (parse_entry idHash 0 emptyState quakeEntry1 "s" "u" "world" 1).1.isSome
        = true ∧
    (parse_entry idHash 0
        (parse_entry idHash 0 emptyState quakeEntry1 "s" "u" "world" 1).2
        quakeEntry2 "s" "u" "world" 1).1 = none := by
  refine ⟨?_, is_duplicate_title_iff, ?_, ?_, ?_, ?_⟩
  · intro md5 now st entry sn su rg p ht hl h
    exact parse_entry_rejects_duplicate md5 now st entry sn su rg p ht hl h
  · intro md5 now st entry sn su rg p a st2 hres
    obtain ⟨hti, hu, hpubf, hscr, himp, hcat, hurls, htit⟩ :=
      parse_entry_success md5 now st entry sn su rg p a st2 hres
    refine ⟨hurls, ?_⟩
    have htit2 : st2.seen_titles =
        if 5000 < (st.seen_titles ++ [pyStrip (entry.title.getD [])]).length then
          (st.seen_titles ++ [pyStrip (entry.title.getD [])]).drop
            ((st.seen_titles ++ [pyStrip (entry.title.getD [])]).length - 3000)
        else st.seen_titles ++ [pyStrip (entry.title.getD [])] := htit
    by_cases hc : 5000 <
        (st.seen_titles ++ [pyStrip (entry.title.getD [])]).length
    · rw [if_pos hc] at htit2
      rw [htit2]
      have hk : (st.seen_titles ++ [pyStrip (entry.title.getD [])]).length
          - 3000 ≤ st.seen_titles.length := by
        simp only [List.length_append, List.length_singleton]
        omega
      rw [List.drop_append_of_le_length hk]
      exact List.mem_append_right _ (by simp)
    · rw [if_neg hc] at htit2
      rw [htit2]
      exact List.mem_append_right _ (by simp)
  · with_unfolding_all decide
  · with_unfolding_all decide
  · with_unfolding_all decide

theorem C3_witness :
    parse_entry idHash 0 ndState ndEntry "src" "https://example.com"
        "world" 1 = (none, ndState) :=
  C3_same_pass_deduplication.1 idHash 0 ndState ndEntry "src"
    "https://example.com" "world" 1 (by decide) (by decide)
    (Or.inl (by decide))

end GlobalPulse
